import Mathlib

/-!
Shallow embedding of the product-catalog consistency layer
(`product.controller` plus the mongoose product schema of this repository).

Ids are modelled as naturals (Mongo ObjectId equality becomes `Nat` equality).
The document store is a pair of lists (products, product images); a
transactional session is modelled by threading a *pending* copy of the store
through the operation while reads without a session go to the *committed*
store (exactly as the source's `findById` calls, which never pass the
session).  `commit` makes the pending store the committed one; `abort`
discards it; aborting after a commit leaves the committed store in place.
Every operation is a pure function `Store → input → Store × Except CustomError Product`
returning the committed store after the operation together with the value
handed to `next(...)`.
-/

namespace ECommerce

abbrev ProductId := Nat
abbrev ImageId := Nat

/-- The `Categories` enum of the product schema. -/
inductive Category where
  | anklet | bodyJewellery | bracelet | earring | necklace | others | phoneStrap
deriving DecidableEq, Repr

/-- `MAX_IMAGES_PER_PRODUCT` from product.constants.ts. -/
def MAX_IMAGES_PER_PRODUCT : Nat := 3

/-- `MIN_IMAGES_PER_PRODUCT` from product.constants.ts. -/
def MIN_IMAGES_PER_PRODUCT : Nat := 1

/-- `MIN_QTY_IN_STOCK` from product.constants.ts. -/
def MIN_QTY_IN_STOCK : Int := 0

/-- `MIN_PRODUCT_PRICE` from product.constants.ts. -/
def MIN_PRODUCT_PRICE : Int := 1

/-- A product document (the mongoose `ProductModel`).  `id` is `_id`. -/
structure Product where
  id : ProductId
  name : String
  description : String
  isPopular : Bool
  price : Int
  quantityInStock : Int
  images : List ImageId
  category : Category
  similarProducts : List ProductId
deriving DecidableEq, Repr

/-- A product-image document (the `ProductImageModel`): identity and file url. -/
structure ProductImage where
  id : ImageId
  url : String
deriving DecidableEq, Repr

/-- The committed document store: the two collections. -/
structure Store where
  products : List Product
  productImages : List ProductImage
deriving DecidableEq, Repr

/-- `ProductModel.findById`: first document whose `_id` matches. -/
def findProduct (s : Store) (pid : ProductId) : Option Product :=
  s.products.find? (fun p => p.id = pid)

/-- `ProductImageModel.findById`. -/
def findImage (s : Store) (iid : ImageId) : Option ProductImage :=
  s.productImages.find? (fun r => r.id = iid)

/-- Replace the document with the incoming key if present, else insert it
at the end: the effect of a `save` on a collection keyed by `_id`. -/
def upsertBy {α : Type} (key : α → Nat) : List α → α → List α
  | [], p => [p]
  | q :: rest, p => if key q = key p then p :: rest else q :: upsertBy key rest p

/-- Persisting a product document (`save`): replace the document with this
`_id` if present, else insert it. -/
def upsertProduct (s : Store) (p : Product) : Store :=
  { s with products := upsertBy (fun q => q.id) s.products p }

/-- Persisting a product-image document. -/
def upsertImage (s : Store) (r : ProductImage) : Store :=
  { s with productImages := upsertBy (fun q => q.id) s.productImages r }

/-- The product schema's validators, run by mongoose on every `save`:
name length 3–200, description empty or 5–1000, price ≥ `MIN_PRODUCT_PRICE`,
quantity ≥ `MIN_QTY_IN_STOCK`, and the images array holding between
`MIN_IMAGES_PER_PRODUCT` and `MAX_IMAGES_PER_PRODUCT` entries. -/
def validProduct (p : Product) : Bool :=
  decide (3 ≤ p.name.length) && decide (p.name.length ≤ 200) &&
  (decide (p.description.length = 0) ||
    (decide (5 ≤ p.description.length) && decide (p.description.length ≤ 1000))) &&
  decide (MIN_PRODUCT_PRICE ≤ p.price) &&
  decide (MIN_QTY_IN_STOCK ≤ p.quantityInStock) &&
  decide (p.images.length ≤ MAX_IMAGES_PER_PRODUCT) &&
  decide (MIN_IMAGES_PER_PRODUCT ≤ p.images.length)

/-- A fire-and-forget `save({ session })` (the source does not `await` the
endpoint saves in the similar-products loops): the write lands in the pending
store when the document validates, and its rejection is unobserved otherwise. -/
def ffSave (pending : Store) (p : Product) : Store :=
  if validProduct p then upsertProduct pending p else pending

/-- The error kinds of the design (§7 of the spec); each carries the thrown
message.  The source throws plain `Error`s; the constructor records which
kind of the taxonomy the throw site belongs to. -/
inductive Err where
  | validation (msg : String)
  | notFound (msg : String)
  | conflict (msg : String)
  | sideEffect (msg : String)
deriving DecidableEq, Repr

/-- `CustomError(message, statusCode)`: the error kind together with the
HTTP status the catch block attaches. -/
abbrev CustomError := Err × Nat

/-- Does a handler result carry a `ValidationError`? -/
def resultIsValidation {α : Type} : Except CustomError α → Bool
  | .error (.validation _, _) => true
  | _ => false

/-- Does a handler result report success (`CustomSuccess`)? -/
def resultIsOk {α : Type} : Except CustomError α → Bool
  | .ok _ => true
  | _ => false

/-- Is the reported status a 400-class status? -/
def statusIs4xx {α : Type} : Except CustomError α → Bool
  | .error (_, code) => 400 ≤ code && code < 500
  | .ok _ => false

/-- JavaScript truthiness of an optional number: `undefined` and `0` are falsy. -/
def jsFalsyInt : Option Int → Bool
  | none => true
  | some n => n = 0

/-- Message of `Product with id X not found.` (with trailing period). -/
def productNotFoundDotMsg (pid : ProductId) : String :=
  "Product with id " ++ toString pid ++ " not found."

/-- Message of `Product with id X not found` (no trailing period). -/
def productNotFoundMsg (pid : ProductId) : String :=
  "Product with id " ++ toString pid ++ " not found"

/-- Message of `Product with id X from similar product array not found`. -/
def simNotFoundMsg (pid : ProductId) : String :=
  "Product with id " ++ toString pid ++ " from similar product array not found"

/-- Message of `Image with id X not found`. -/
def imageNotFoundMsg (iid : ImageId) : String :=
  "Image with id " ++ toString iid ++ " not found"

/-- Message of `Image with id X does not belong to product with id Y`. -/
def imageNotBelongMsg (iid : ImageId) (pid : ProductId) : String :=
  "Image with id " ++ toString iid ++ " does not belong to product with id " ++ toString pid

/-- Message of the mongoose document-validation failure raised by an awaited
`save` of an invalid product document. -/
def validationFailedMsg : String := "Product validation failed"

/-- `Maximum 3 images per product.` -/
def maxImagesMsg : String := "Maximum 3 images per product."

/-- `Image files not present.` -/
def filesNotPresentMsg : String := "Image files not present."

/-- `Image not uploaded.` -/
def imageNotUploadedMsg : String := "Image not uploaded."

/-- `Already 3 images for product present. Delete some image.` -/
def alreadyMaxImagesMsg : String :=
  "Already " ++ toString MAX_IMAGES_PER_PRODUCT ++ " images for product present. Delete some image."

/-- `Images are different` -/
def imagesDifferentMsg : String := "Images are different"

/-- `Cannot add product itself as a similar product` -/
def selfSimilarMsg : String := "Cannot add product itself as a similar product"

/-- `New product quantity not present` -/
def qtyNotPresentMsg : String := "New product quantity not present"

/-- Modelled from the spec: the File Store Gateway's upload primitive is not
under src/; its failure message is modelled as a function of the file. -/
def uploadFailMsg (file : String) : String :=
  "Failed to upload image file " ++ file

/-- Modelled from the spec: the File Store Gateway's delete primitive is not
under src/; its failure message is modelled as a function of the path. -/
def deleteFileFailMsg (path : String) : String :=
  "Failed to delete image file " ++ path

/-- Modelled from the spec: `createProductImage` (not under src/) persists an
image record with a path derived from the file, within the session (§4.2). -/
def imageUrlOfFile (file : String) : String := file

/-- The post-commit upload loop of `createProduct`: uploads each file in
order, throwing at the first failure.  `uploadOk` is the fault-injection
point for the file store. -/
def uploadAll (uploadOk : String → Bool) : List String → Except Err Unit
  | [] => .ok ()
  | f :: rest => if uploadOk f then uploadAll uploadOk rest else .error (.sideEffect (uploadFailMsg f))

/-- A file store that always succeeds. -/
def fsAlwaysOk : String → Bool := fun _ => true

/-- A file store that always fails. -/
def fsAlwaysFail : String → Bool := fun _ => false

/-- `getProduct`: read-only single lookup; its catch reports status 500. -/
def getProduct (store : Store) (pid : ProductId) : Store × Except CustomError Product :=
  match findProduct store pid with
  | none => (store, .error (.notFound (productNotFoundDotMsg pid), 500))
  | some p => (store, .ok p)

/-- `editQuantityOfProduct`: rejects a falsy `quantityInStock`, loads the
product, sets the field and saves; its catch reports status 500. -/
def editQuantityOfProduct (store : Store) (pid : ProductId) (newQty : Option Int) :
    Store × Except CustomError Product :=
  if jsFalsyInt newQty then
    (store, .error (.validation qtyNotPresentMsg, 500))
  else
    match findProduct store pid with
    | none => (store, .error (.notFound (productNotFoundDotMsg pid), 500))
    | some p =>
      let p' := { p with quantityInStock := newQty.getD 0 }
      if validProduct p' then (upsertProduct store p', .ok p')
      else (store, .error (.validation validationFailedMsg, 500))

/-- Modelled from the spec: `doesArraysHaveSimilarElements` is imported from
the shared helpers, which are not under src/; per §4.4 it checks "same
cardinality and same elements, any order". -/
def doesArraysHaveSimilarElements (a b : List Nat) : Bool :=
  decide (a.length = b.length) && a.all (fun x => b.contains x) && b.all (fun x => a.contains x)

/-- `rearrangeImagesOfProduct`: single-document, no session; accepts the
submitted order iff it has the same elements as the current image list;
its catch reports status 400. -/
def rearrangeImagesOfProduct (store : Store) (pid : ProductId) (body : List ImageId) :
    Store × Except CustomError Product :=
  match findProduct store pid with
  | none => (store, .error (.notFound (productNotFoundMsg pid), 400))
  | some product =>
    if doesArraysHaveSimilarElements body product.images then
      let product' := { product with images := body }
      if validProduct product' then (upsertProduct store product', .ok product')
      else (store, .error (.validation validationFailedMsg, 400))
    else
      (store, .error (.validation imagesDifferentMsg, 400))

/-- `addNewImageOfProduct`: transactional; creates the image record and
appends it to the product inside the session, commits, then uploads the
bytes; every failure (before or after commit) is caught with status 400. -/
def addNewImageOfProduct (store : Store) (file : Option String) (pid : ProductId)
    (freshImgId : ImageId) (uploadOk : String → Bool) :
    Store × Except CustomError Product :=
  match file with
  | none => (store, .error (.validation imageNotUploadedMsg, 400))
  | some f =>
    match findProduct store pid with
    | none => (store, .error (.notFound (productNotFoundMsg pid), 400))
    | some product =>
      if ¬ (product.images.length < MAX_IMAGES_PER_PRODUCT) then
        (store, .error (.validation alreadyMaxImagesMsg, 400))
      else
        let pending := upsertImage store ⟨freshImgId, imageUrlOfFile f⟩
        let product' := { product with images := product.images ++ [freshImgId] }
        if validProduct product' then
          let committed := upsertProduct pending product'
          if uploadOk f then (committed, .ok product')
          else (committed, .error (.sideEffect (uploadFailMsg f), 400))
        else (store, .error (.validation validationFailedMsg, 400))

/-- `deleteImageOfProduct`: transactional; requires the image to belong to
the stated product, removes the reference and the record, commits, then
deletes the file; every failure is caught with status 400. -/
def deleteImageOfProduct (store : Store) (pid : ProductId) (iid : ImageId)
    (deleteFileOk : String → Bool) : Store × Except CustomError Product :=
  match findProduct store pid with
  | none => (store, .error (.notFound (productNotFoundMsg pid), 400))
  | some product =>
    match findImage store iid with
    | none => (store, .error (.notFound (imageNotFoundMsg iid), 400))
    | some image =>
      if ¬ (image.id ∈ product.images) then
        (store, .error (.conflict (imageNotBelongMsg iid pid), 400))
      else
        let product' := { product with images := product.images.erase image.id }
        if validProduct product' then
          let pending :=
            upsertProduct
              { store with productImages := store.productImages.filter (fun r => r.id ≠ iid) }
              product'
          if deleteFileOk image.url then (pending, .ok product')
          else (pending, .error (.sideEffect (deleteFileFailMsg image.url), 400))
        else (store, .error (.validation validationFailedMsg, 400))

/-- The body of `createProduct` as shaped by `CreateProductDto`. -/
structure CreateProductInput where
  name : String
  description : String
  isPopular : Bool
  price : Int
  quantityInStock : Int
  category : Category
  similarProducts : List ProductId
deriving DecidableEq, Repr

/-- The fresh product document `new ProductModel({...})` built from the DTO
with the generated `_id` and, after the file loop, the created image ids. -/
def mkCreateProduct (input : CreateProductInput) (freshId : ProductId) (imgs : List ImageId) :
    Product :=
  { id := freshId, name := input.name, description := input.description,
    isPopular := input.isPopular, price := input.price,
    quantityInStock := input.quantityInStock, images := imgs,
    category := input.category, similarProducts := [] }

/-- The initial-similar-products loop of `createProduct`: each listed id is
looked up in the committed store (the reads carry no session); a missing id
throws; otherwise the id is pushed onto the new product and the fresh
product id is pushed onto the endpoint, which is saved without `await`. -/
def createSimilarLoop (committed : Store) (freshId : ProductId)
    (sim : List ProductId) (pending : Store) :
    List ProductId → Except Err (List ProductId × Store)
  | [] => .ok (sim, pending)
  | c :: rest =>
    match findProduct committed c with
    | none => .error (.notFound (simNotFoundMsg c))
    | some sp =>
      let sp' := { sp with similarProducts := sp.similarProducts ++ [freshId] }
      createSimilarLoop committed freshId (sim ++ [c]) (ffSave pending sp') rest

/-- The transactional stage of `createProduct` (everything before commit):
file-count checks, image-record creation inside the session, the
initial-similar-products loop, and the awaited `product.save`.  `freshId` is
the generated `_id` of the new product and `imgIds` the generated ids of its
image records. -/
def createProductCore (store : Store) (files : List String) (input : CreateProductInput)
    (freshId : ProductId) (imgIds : List ImageId) : Except Err (Store × Product) :=
  if files.length > MAX_IMAGES_PER_PRODUCT then .error (.validation maxImagesMsg)
  else
    let pairs := files.zip imgIds
    let pending1 := pairs.foldl (fun st fi => upsertImage st ⟨fi.2, imageUrlOfFile fi.1⟩) store
    match createSimilarLoop store freshId [] pending1 input.similarProducts with
    | .error e => .error e
    | .ok (sim, pending2) =>
      let product : Product :=
        { mkCreateProduct input freshId (pairs.map (fun fi => fi.2)) with similarProducts := sim }
      if validProduct product then .ok (upsertProduct pending2 product, product)
      else .error (.validation validationFailedMsg)

/-- `createProduct`: missing files reject; the transactional stage runs and
commits; only then are the bytes uploaded.  Any thrown error — including an
upload failure after the commit — lands in the catch block, which aborts
(a no-op once committed) and reports a `CustomError` with status 400. -/
def createProduct (store : Store) (files : Option (List String)) (input : CreateProductInput)
    (freshId : ProductId) (imgIds : List ImageId) (uploadOk : String → Bool) :
    Store × Except CustomError Product :=
  match files with
  | none => (store, .error (.validation filesNotPresentMsg, 400))
  | some fs =>
    match createProductCore store fs input freshId imgIds with
    | .error e => (store, .error (e, 400))
    | .ok (committed, product) =>
      match uploadAll uploadOk fs with
      | .error e => (committed, .error (e, 400))
      | .ok _ => (committed, .ok product)

/-- The removal loop of `editSimilarProductsOfProduct`: for each id to
remove, the endpoint is looked up in the committed store; a missing endpoint
is skipped entirely (the dangling id stays in the product's list); an
existing endpoint is stripped of the product's id and saved without `await`,
and the id is stripped from the product's in-memory list. -/
def removeLoop (committed : Store) (pid : ProductId) (sim : List ProductId) (pending : Store) :
    List ProductId → List ProductId × Store
  | [] => (sim, pending)
  | c :: rest =>
    match findProduct committed c with
    | none => removeLoop committed pid sim pending rest
    | some oldP =>
      removeLoop committed pid
        (sim.filter (fun x => !(x == c)))
        (ffSave pending { oldP with similarProducts := oldP.similarProducts.filter (fun x => !(x == pid)) })
        rest

/-- The addition loop of `editSimilarProductsOfProduct`: a to-add id equal to
the product's own id throws; a missing endpoint throws; otherwise the id is
pushed onto the product and the product's id onto the endpoint, which is
saved without `await`. -/
def addLoop (committed : Store) (pid : ProductId) (sim : List ProductId) (pending : Store) :
    List ProductId → Except Err (List ProductId × Store)
  | [] => .ok (sim, pending)
  | c :: rest =>
    if pid = c then .error (.validation selfSimilarMsg)
    else
      match findProduct committed c with
      | none => .error (.notFound (simNotFoundMsg c))
      | some np =>
        addLoop committed pid (sim ++ [c])
          (ffSave pending { np with similarProducts := np.similarProducts ++ [pid] })
          rest

/-- The transactional stage of `editSimilarProductsOfProduct`: the delta is
computed against the loaded product, the removal loop runs, then the
addition loop, then the awaited `product.save`. -/
def editSimilarCore (store : Store) (pid : ProductId) (body : List ProductId) :
    Except Err (Store × Product) :=
  match findProduct store pid with
  | none => .error (.notFound (productNotFoundDotMsg pid))
  | some product =>
    let removeIds := product.similarProducts.filter (fun o => !(body.contains o))
    let addIds := body.filter (fun n => !(product.similarProducts.contains n))
    let rl := removeLoop store product.id product.similarProducts store removeIds
    match addLoop store product.id rl.1 rl.2 addIds with
    | .error e => .error e
    | .ok (sim2, pending2) =>
      let product' := { product with similarProducts := sim2 }
      if validProduct product' then .ok (upsertProduct pending2 product', product')
      else .error (.validation validationFailedMsg)

/-- `editSimilarProductsOfProduct`: the transactional stage commits on
success; every failure aborts and is caught with status 500. -/
def editSimilarProductsOfProduct (store : Store) (pid : ProductId) (body : List ProductId) :
    Store × Except CustomError Product :=
  match editSimilarCore store pid body with
  | .ok (s, p) => (s, .ok p)
  | .error e => (store, .error (e, 500))

/-- Distinct document ids and schema-valid documents: the well-formedness the
store of a running system maintains. -/
def wfStore (s : Store) : Prop :=
  (s.products.map (fun p => p.id)).Nodup ∧ ∀ p ∈ s.products, validProduct p

/-- The mutual-edge invariant of §3: whenever one stored product lists
another stored product as similar, the latter lists the former back. -/
def mutualInvariant (s : Store) : Prop :=
  ∀ p ∈ s.products, ∀ q ∈ s.products, q.id ∈ p.similarProducts → p.id ∈ q.similarProducts

/-! ### Concrete stores and inputs used by the test scenarios -/

/-- The empty store. -/
def emptyStore : Store := { products := [], productImages := [] }

/-- A schema-valid product with the single image 10. -/
def sampleProduct : Product :=
  { id := 1, name := "abc", description := "", isPopular := false, price := 1,
    quantityInStock := 2, images := [10], category := .others, similarProducts := [] }

/-- A store holding only `sampleProduct` and its image record. -/
def sampleStore : Store :=
  { products := [sampleProduct], productImages := [{ id := 10, url := "u10" }] }

/-- A schema-valid product with the two images 10 and 11 (in that order). -/
def twoImgProduct : Product :=
  { id := 1, name := "abc", description := "", isPopular := false, price := 1,
    quantityInStock := 2, images := [10, 11], category := .others, similarProducts := [] }

/-- A store holding `twoImgProduct` and its two image records. -/
def twoImgStore : Store :=
  { products := [twoImgProduct],
    productImages := [{ id := 10, url := "u10" }, { id := 11, url := "u11" }] }

/-- A product holding the dangling similar-product reference 99
(no product with id 99 exists in `danglingStore`). -/
def danglingProduct : Product :=
  { id := 1, name := "abc", description := "", isPopular := false, price := 1,
    quantityInStock := 2, images := [10], category := .others, similarProducts := [99] }

/-- A store holding `danglingProduct` only. -/
def danglingStore : Store :=
  { products := [danglingProduct], productImages := [{ id := 10, url := "u10" }] }

/-- Product 1 of the mutual-edge scenario. -/
def pairA : Product :=
  { id := 1, name := "abc", description := "", isPopular := false, price := 1,
    quantityInStock := 2, images := [10], category := .others, similarProducts := [] }

/-- Product 2 of the mutual-edge scenario. -/
def pairB : Product :=
  { id := 2, name := "abd", description := "", isPopular := false, price := 1,
    quantityInStock := 2, images := [11], category := .others, similarProducts := [] }

/-- A store holding `pairA` and `pairB`, with no edge between them. -/
def pairStore : Store :=
  { products := [pairA, pairB],
    productImages := [{ id := 10, url := "u10" }, { id := 11, url := "u11" }] }

/-- A create-product body listing the nonexistent similar product 5. -/
def cexCreateInput : CreateProductInput :=
  { name := "abc", description := "", isPopular := false, price := 1,
    quantityInStock := 2, category := .others, similarProducts := [5] }

/-- A plain, valid create-product body with no similar products. -/
def oneFileInput : CreateProductInput :=
  { name := "abc", description := "", isPopular := false, price := 1,
    quantityInStock := 2, category := .others, similarProducts := [] }

/-! ### Basic store lemmas -/

theorem find?_upsertBy {α : Type} (key : α → Nat) (l : List α) (p : α) (x : Nat) :
    (upsertBy key l p).find? (fun q => key q = x) =
      if x = key p then some p else l.find? (fun q => key q = x) := by
  induction l with
  | nil =>
    by_cases hx : x = key p <;> simp [upsertBy, List.find?, hx, Eq.comm]
  | cons q rest ih =>
    by_cases hq : key q = key p
    · by_cases hx : x = key p
      · simp [upsertBy, hq, List.find?, hx]
      · have hpx : ¬ (key p = x) := fun h => hx h.symm
        simp [upsertBy, hq, List.find?, hx, hpx]
    · by_cases hqx : key q = x
      · have hx : ¬ (x = key p) := fun h => hq (hqx.trans h)
        simp [upsertBy, hq, List.find?, hqx, hx]
      · simp [upsertBy, hq, List.find?, hqx, ih]

theorem findProduct_upsert (s : Store) (p : Product) (x : ProductId) :
    findProduct (upsertProduct s p) x = if x = p.id then some p else findProduct s x := by
  simp [findProduct, upsertProduct, find?_upsertBy]

theorem findImage_upsertImage (s : Store) (r : ProductImage) (x : ImageId) :
    findImage (upsertImage s r) x = if x = r.id then some r else findImage s x := by
  simp [findImage, upsertImage, find?_upsertBy]

theorem findImage_upsertProduct (s : Store) (p : Product) (x : ImageId) :
    findImage (upsertProduct s p) x = findImage s x := rfl

theorem findProduct_upsertImage (s : Store) (r : ProductImage) (x : ProductId) :
    findProduct (upsertImage s r) x = findProduct s x := rfl

theorem productImages_upsertProduct (s : Store) (p : Product) :
    (upsertProduct s p).productImages = s.productImages := rfl

theorem find?_of_mem_nodup {l : List Product} {p : Product}
    (hnodup : (l.map (fun q => q.id)).Nodup) (hp : p ∈ l) :
    l.find? (fun q => q.id = p.id) = some p := by
  induction l with
  | nil => cases hp
  | cons q rest ih =>
    rcases List.mem_cons.mp hp with h | h
    · subst h; simp [List.find?]
    · have hqid : ¬ (q.id = p.id) := by
        intro he
        have hmem : p.id ∈ rest.map (fun q => q.id) := List.mem_map.mpr ⟨p, h, rfl⟩
        exact (List.nodup_cons.mp (by simpa using hnodup)).1 (he ▸ hmem)
      have hrest : (rest.map (fun q => q.id)).Nodup :=
        (List.nodup_cons.mp (by simpa using hnodup)).2
      simpa [List.find?, hqid] using ih hrest h

/-- A member of a store with distinct ids is what `findById` returns at its id. -/
theorem findProduct_of_mem {s : Store} {p : Product}
    (hnodup : (s.products.map (fun q => q.id)).Nodup) (hp : p ∈ s.products) :
    findProduct s p.id = some p :=
  find?_of_mem_nodup hnodup hp

/-- `findById` returns a document whose `_id` is the requested id. -/
theorem findProduct_id {s : Store} {x : ProductId} {q : Product}
    (h : findProduct s x = some q) : q.id = x := by
  have := List.find?_some h
  simpa using this

theorem findImage_id {s : Store} {x : ImageId} {r : ProductImage}
    (h : findImage s x = some r) : r.id = x := by
  have := List.find?_some h
  simpa using this

/-- A found document is a member of the store. -/
theorem findProduct_mem {s : Store} {x : ProductId} {q : Product}
    (h : findProduct s x = some q) : q ∈ s.products :=
  List.mem_of_find?_eq_some h

/-- The validators never read `similarProducts`. -/
theorem validProduct_set_sim (p : Product) (l : List ProductId) :
    validProduct { p with similarProducts := l } = validProduct p := rfl

/-- Replacing the image list keeps a valid document valid as long as the new
list's length stays within the schema's bounds. -/
theorem validProduct_set_images {p : Product} {l : List ImageId}
    (hv : validProduct p = true)
    (hlo : MIN_IMAGES_PER_PRODUCT ≤ l.length) (hhi : l.length ≤ MAX_IMAGES_PER_PRODUCT) :
    validProduct { p with images := l } = true := by
  simp only [validProduct, Bool.and_eq_true, decide_eq_true_eq] at hv ⊢
  exact ⟨⟨hv.1.1, hhi⟩, hlo⟩

theorem findProduct_ffSave_ne (pending : Store) (p : Product) (x : ProductId)
    (h : p.id ≠ x) : findProduct (ffSave pending p) x = findProduct pending x := by
  unfold ffSave
  split
  · rw [findProduct_upsert, if_neg (fun he => h he.symm)]
  · rfl

theorem findProduct_ffSave_self (pending : Store) (p : Product)
    (h : validProduct p = true) : findProduct (ffSave pending p) p.id = some p := by
  unfold ffSave
  rw [if_pos h, findProduct_upsert, if_pos rfl]

theorem productImages_ffSave (pending : Store) (p : Product) :
    (ffSave pending p).productImages = pending.productImages := by
  unfold ffSave
  split <;> rfl

/-! ### Removal-loop lemmas (`editSimilarProductsOfProduct`, lines 462–469) -/

/-- The removal loop never adds ids to the product's in-memory list. -/
theorem removeLoop_subset (committed : Store) (pid : ProductId) :
    ∀ (ids sim : List ProductId) (pending : Store) (x : ProductId),
      x ∈ (removeLoop committed pid sim pending ids).1 → x ∈ sim := by
  intro ids
  induction ids with
  | nil => intro sim pending x hx; simpa [removeLoop] using hx
  | cons c rest ih =>
    intro sim pending x hx
    unfold removeLoop at hx
    cases hfc : findProduct committed c with
    | none => rw [hfc] at hx; exact ih _ _ _ hx
    | some q =>
      rw [hfc] at hx
      exact (List.mem_filter.mp (ih _ _ _ hx)).1

/-- Ids not named by the loop keep their membership status. -/
theorem removeLoop_mem_iff (committed : Store) (pid : ProductId) :
    ∀ (ids sim : List ProductId) (pending : Store) (x : ProductId), x ∉ ids →
      (x ∈ (removeLoop committed pid sim pending ids).1 ↔ x ∈ sim) := by
  intro ids
  induction ids with
  | nil => intro sim pending x _; simp [removeLoop]
  | cons c rest ih =>
    intro sim pending x hx
    have hxc : x ≠ c := fun h => hx (h ▸ List.mem_cons_self c rest)
    have hxr : x ∉ rest := fun h => hx (List.mem_cons_of_mem c h)
    unfold removeLoop
    cases hfc : findProduct committed c with
    | none => exact ih _ _ _ hxr
    | some q =>
      rw [ih _ _ _ hxr]
      simp [List.mem_filter, hxc]

/-- An id whose endpoint no longer exists in the committed store survives the
removal loop in the product's own list (the whole step for it is skipped). -/
theorem removeLoop_mem_missing (committed : Store) (pid : ProductId) :
    ∀ (ids sim : List ProductId) (pending : Store) (x : ProductId),
      x ∈ sim → findProduct committed x = none →
      x ∈ (removeLoop committed pid sim pending ids).1 := by
  intro ids
  induction ids with
  | nil => intro sim pending x hx _; simpa [removeLoop] using hx
  | cons c rest ih =>
    intro sim pending x hx hmiss
    unfold removeLoop
    cases hfc : findProduct committed c with
    | none => exact ih _ _ _ hx hmiss
    | some q =>
      have hxc : x ≠ c := fun h => by rw [h, hfc] at hmiss; cases hmiss
      exact ih _ _ _ (List.mem_filter.mpr ⟨hx, by simp [hxc]⟩) hmiss

/-- A processed id whose endpoint exists is really removed from the
product's in-memory list. -/
theorem removeLoop_not_mem (committed : Store) (pid : ProductId) :
    ∀ (ids sim : List ProductId) (pending : Store) (c : ProductId),
      c ∈ ids → (findProduct committed c).isSome →
      c ∉ (removeLoop committed pid sim pending ids).1 := by
  intro ids
  induction ids with
  | nil => intro sim pending c hc; cases hc
  | cons d rest ih =>
    intro sim pending c hc hsome
    unfold removeLoop
    cases hfd : findProduct committed d with
    | none =>
      have hcd : c ≠ d := fun h => by rw [h, hfd] at hsome; cases hsome
      exact ih _ _ _ ((List.mem_cons.mp hc).resolve_left hcd) hsome
    | some q =>
      by_cases hcd : c = d
      · subst hcd
        intro hmem
        have := removeLoop_subset committed pid rest _ _ _ hmem
        simp [List.mem_filter] at this
      · exact ih _ _ _ ((List.mem_cons.mp hc).resolve_left hcd) hsome

/-- Documents not named by the removal loop are untouched in the pending store. -/
theorem removeLoop_find_other (committed : Store) (pid : ProductId) :
    ∀ (ids sim : List ProductId) (pending : Store) (x : ProductId), x ∉ ids →
      findProduct (removeLoop committed pid sim pending ids).2 x = findProduct pending x := by
  intro ids
  induction ids with
  | nil => intro sim pending x _; simp [removeLoop]
  | cons c rest ih =>
    intro sim pending x hx
    have hxc : x ≠ c := fun h => hx (h ▸ List.mem_cons_self c rest)
    have hxr : x ∉ rest := fun h => hx (List.mem_cons_of_mem c h)
    unfold removeLoop
    cases hfc : findProduct committed c with
    | none => exact ih _ _ _ hxr
    | some q =>
      rw [ih _ _ _ hxr]
      exact findProduct_ffSave_ne _ _ _ (fun h => hxc ((findProduct_id hfc) ▸ h).symm)

/-- A processed id with an existing, schema-valid endpoint ends up saved in
the pending store with the product's id stripped from its set. -/
theorem removeLoop_find_processed (committed : Store) (pid : ProductId) :
    ∀ (ids sim : List ProductId) (pending : Store) (c : ProductId) (q : Product),
      c ∈ ids → findProduct committed c = some q → validProduct q = true →
      findProduct (removeLoop committed pid sim pending ids).2 c =
        some { q with similarProducts := q.similarProducts.filter (fun x => !(x == pid)) } := by
  intro ids
  induction ids with
  | nil => intro sim pending c q hc; cases hc
  | cons d rest ih =>
    intro sim pending c q hc hq hv
    unfold removeLoop
    cases hfd : findProduct committed d with
    | none =>
      have hcd : c ≠ d := fun h => by rw [h, hfd] at hq; cases hq
      exact ih _ _ _ _ ((List.mem_cons.mp hc).resolve_left hcd) hq hv
    | some q0 =>
      by_cases hcr : c ∈ rest
      · exact ih _ _ _ _ hcr hq hv
      · have hcd : c = d := (List.mem_cons.mp hc).resolve_right hcr
        have hq0 : q0 = q := by
          rw [hcd] at hq
          exact Option.some.inj (hfd.symm.trans hq)
        rw [removeLoop_find_other committed pid rest _ _ _ hcr, hq0]
        have hid : q.id = c := findProduct_id hq
        have hv' : validProduct
            { q with similarProducts := q.similarProducts.filter (fun x => !(x == pid)) } = true := by
          rw [validProduct_set_sim]; exact hv
        have hfs := findProduct_ffSave_self pending
          { q with similarProducts := q.similarProducts.filter (fun x => !(x == pid)) } hv'
        simpa [hid] using hfs

/-! ### Addition-loop lemmas (`editSimilarProductsOfProduct`, lines 471–482) -/

/-- When every to-add id is distinct from the product and exists (with a
schema-valid endpoint), the addition loop succeeds, appends exactly the
to-add ids to the product's in-memory list, pushes the product's id onto
each endpoint's saved document, and touches no other document. -/
theorem addLoop_ok (committed : Store) (pid : ProductId) :
    ∀ (ids sim : List ProductId) (pending : Store),
      (∀ c ∈ ids, pid ≠ c ∧ ∃ q, findProduct committed c = some q ∧ validProduct q = true) →
      ∃ pending', addLoop committed pid sim pending ids = .ok (sim ++ ids, pending') ∧
        (∀ x, x ∉ ids → findProduct pending' x = findProduct pending x) ∧
        (∀ c ∈ ids, ∀ q, findProduct committed c = some q →
          findProduct pending' c = some { q with similarProducts := q.similarProducts ++ [pid] }) := by
  intro ids
  induction ids with
  | nil =>
    intro sim pending _
    exact ⟨pending, by simp [addLoop], fun x _ => rfl, fun c hc => absurd hc (List.not_mem_nil c)⟩
  | cons c rest ih =>
    intro sim pending hall
    obtain ⟨hne, q, hq, hv⟩ := hall c (List.mem_cons_self c rest)
    have hv' : validProduct { q with similarProducts := q.similarProducts ++ [pid] } = true := by
      rw [validProduct_set_sim]; exact hv
    obtain ⟨pending', heq, hother, hproc⟩ :=
      ih (sim ++ [c]) (ffSave pending { q with similarProducts := q.similarProducts ++ [pid] })
        (fun d hd => hall d (List.mem_cons_of_mem c hd))
    refine ⟨pending', ?_, ?_, ?_⟩
    · unfold addLoop
      rw [if_neg hne, hq]
      show addLoop committed pid (sim ++ [c])
        (ffSave pending { q with similarProducts := q.similarProducts ++ [pid] }) rest = _
      rw [heq, List.append_cons sim c rest]
    · intro x hx
      have hxc : x ≠ c := fun h => hx (h ▸ List.mem_cons_self c rest)
      have hxr : x ∉ rest := fun h => hx (List.mem_cons_of_mem c h)
      rw [hother x hxr]
      exact findProduct_ffSave_ne _ _ _ (fun h => hxc ((findProduct_id hq) ▸ h).symm)
    · intro c' hc' q' hq'
      by_cases hcr : c' ∈ rest
      · exact hproc c' hcr q' hq'
      · have hcd : c' = c := (List.mem_cons.mp hc').resolve_right hcr
        subst hcd
        have hqq : q' = q := by rw [hq'] at hq; exact Option.some.inj hq
        subst hqq
        rw [hother c' hcr]
        have hid : q'.id = c' := findProduct_id hq
        have := findProduct_ffSave_self pending
          { q' with similarProducts := q'.similarProducts ++ [pid] } hv'
        simpa [hid] using this

/-- The addition loop fails whenever some to-add id has no document in the
committed store (whatever error is raised first). -/
theorem addLoop_error_missing (committed : Store) (pid : ProductId) :
    ∀ (ids sim : List ProductId) (pending : Store),
      (∃ c ∈ ids, findProduct committed c = none) →
      ∃ e, addLoop committed pid sim pending ids = .error e := by
  intro ids
  induction ids with
  | nil => intro sim pending ⟨c, hc, _⟩; cases hc
  | cons d rest ih =>
    intro sim pending ⟨c, hc, hmiss⟩
    unfold addLoop
    by_cases hpd : pid = d
    · exact ⟨_, by rw [if_pos hpd]⟩
    · rw [if_neg hpd]
      cases hfd : findProduct committed d with
      | none => exact ⟨_, rfl⟩
      | some q =>
        have hcd : c ≠ d := fun h => by rw [h, hfd] at hmiss; cases hmiss
        exact ih _ _ ⟨c, (List.mem_cons.mp hc).resolve_left hcd, hmiss⟩

/-- If the product's own id occurs among the to-add ids and every id before
its first occurrence exists, the loop throws the self-reference error. -/
theorem addLoop_self (committed : Store) (pid : ProductId) :
    ∀ (pre post sim : List ProductId) (pending : Store), pid ∉ pre →
      (∀ c ∈ pre, (findProduct committed c).isSome) →
      addLoop committed pid sim pending (pre ++ pid :: post) =
        .error (.validation selfSimilarMsg) := by
  intro pre
  induction pre with
  | nil =>
    intro post sim pending _ _
    rw [List.nil_append]
    unfold addLoop
    rw [if_pos rfl]
  | cons d rest ih =>
    intro post sim pending hnp hex
    have hpd : pid ≠ d := fun h => hnp (h ▸ List.mem_cons_self d rest)
    obtain ⟨q, hq⟩ := Option.isSome_iff_exists.mp (hex d (List.mem_cons_self d rest))
    show addLoop committed pid sim pending (d :: (rest ++ pid :: post)) = _
    unfold addLoop
    rw [if_neg hpd, hq]
    exact ih post _ _ (fun h => hnp (List.mem_cons_of_mem d h))
      (fun c hc => hex c (List.mem_cons_of_mem d hc))

/-! ### Upload and create-product helper lemmas -/

theorem uploadAll_ok (uploadOk : String → Bool) :
    ∀ fs : List String, (∀ f ∈ fs, uploadOk f = true) → uploadAll uploadOk fs = .ok () := by
  intro fs
  induction fs with
  | nil => intro _; rfl
  | cons f rest ih =>
    intro h
    unfold uploadAll
    rw [if_pos (h f (List.mem_cons_self f rest))]
    exact ih (fun g hg => h g (List.mem_cons_of_mem f hg))

theorem uploadAll_fail (uploadOk : String → Bool) :
    ∀ fs : List String, (∃ f ∈ fs, uploadOk f = false) →
      ∃ m, uploadAll uploadOk fs = .error (.sideEffect m) := by
  intro fs
  induction fs with
  | nil => rintro ⟨f, hf, _⟩; cases hf
  | cons g rest ih =>
    rintro ⟨f, hf, hfail⟩
    unfold uploadAll
    by_cases hg : uploadOk g = true
    · rw [if_pos hg]
      have hfr : f ∈ rest := by
        rcases List.mem_cons.mp hf with h | h
        · rw [h, hg] at hfail; cases hfail
        · exact h
      exact ih ⟨f, hfr, hfail⟩
    · rw [if_neg hg]
      exact ⟨uploadFailMsg g, rfl⟩

/-- Every image id fed to the image-creation loop (and every record already
present) has a record in the resulting pending store. -/
theorem findImage_foldUpsert (committedUrl : String → String) :
    ∀ (pairs : List (String × ImageId)) (st : Store) (i : ImageId),
      (i ∈ pairs.map (fun fi => fi.2) ∨ (findImage st i).isSome) →
      (findImage (pairs.foldl (fun st fi => upsertImage st ⟨fi.2, committedUrl fi.1⟩) st) i).isSome := by
  intro pairs
  induction pairs with
  | nil =>
    rintro st i (h | h)
    · simp at h
    · simpa using h
  | cons fi rest ih =>
    rintro st i (h | h)
    · rw [List.map_cons] at h
      rcases List.mem_cons.mp h with hh | hh
      · refine ih _ _ (Or.inr ?_)
        rw [findImage_upsertImage, if_pos hh]
        rfl
      · exact ih _ _ (Or.inl hh)
    · refine ih _ _ (Or.inr ?_)
      rw [findImage_upsertImage]
      split
      · rfl
      · exact h

/-- The initial-similar-products loop succeeds when every listed id exists,
and it only saves product documents (the image collection is untouched). -/
theorem createSimilarLoop_ok (committed : Store) (freshId : ProductId) :
    ∀ (ids sim : List ProductId) (pending : Store),
      (∀ c ∈ ids, (findProduct committed c).isSome) →
      ∃ sim' pending', createSimilarLoop committed freshId sim pending ids = .ok (sim', pending') ∧
        pending'.productImages = pending.productImages := by
  intro ids
  induction ids with
  | nil => intro sim pending _; exact ⟨sim, pending, rfl, rfl⟩
  | cons c rest ih =>
    intro sim pending hall
    obtain ⟨q, hq⟩ := Option.isSome_iff_exists.mp (hall c (List.mem_cons_self c rest))
    obtain ⟨sim', pending', heq, himg⟩ :=
      ih (sim ++ [c]) (ffSave pending { q with similarProducts := q.similarProducts ++ [freshId] })
        (fun d hd => hall d (List.mem_cons_of_mem c hd))
    refine ⟨sim', pending', ?_, ?_⟩
    · unfold createSimilarLoop
      rw [hq]
      exact heq
    · rw [himg, productImages_ffSave]

/-- The loop fails at the first listed id with no document. -/
theorem createSimilarLoop_missing (committed : Store) (freshId : ProductId) :
    ∀ (ids sim : List ProductId) (pending : Store),
      (∃ c ∈ ids, findProduct committed c = none) →
      ∃ e, createSimilarLoop committed freshId sim pending ids = .error e := by
  intro ids
  induction ids with
  | nil => rintro sim pending ⟨c, hc, _⟩; cases hc
  | cons d rest ih =>
    rintro sim pending ⟨c, hc, hmiss⟩
    unfold createSimilarLoop
    cases hfd : findProduct committed d with
    | none => exact ⟨_, rfl⟩
    | some q =>
      have hcd : c ≠ d := fun h => by rw [h, hfd] at hmiss; cases hmiss
      exact ih _ _ ⟨c, (List.mem_cons.mp hc).resolve_left hcd, hmiss⟩

/-- An empty image-file array slips past the explicit count checks but the
awaited `product.save` then fails the schema's minimum-images validator. -/
theorem createProductCore_no_files (store : Store) (input : CreateProductInput)
    (freshId : ProductId) (imgIds : List ImageId) :
    (∃ e, createProductCore store [] input freshId imgIds = .error e) ∧
      ((∀ c ∈ input.similarProducts, (findProduct store c).isSome) →
        createProductCore store [] input freshId imgIds = .error (.validation validationFailedMsg)) := by
  constructor
  · unfold createProductCore
    rw [if_neg (by simp [MAX_IMAGES_PER_PRODUCT])]
    simp only [List.zip_nil_left, List.foldl_nil, List.map_nil]
    cases hcsl : createSimilarLoop store freshId [] store input.similarProducts with
    | error e => exact ⟨e, rfl⟩
    | ok p =>
      obtain ⟨sim, pend⟩ := p
      refine ⟨.validation validationFailedMsg, ?_⟩
      dsimp only
      rw [if_neg (by simp [validProduct, mkCreateProduct, MIN_IMAGES_PER_PRODUCT])]
  · intro hsim
    obtain ⟨sim', pending', heq, _⟩ :=
      createSimilarLoop_ok store freshId input.similarProducts [] store hsim
    unfold createProductCore
    rw [if_neg (by simp [MAX_IMAGES_PER_PRODUCT])]
    simp only [List.zip_nil_left, List.foldl_nil, List.map_nil]
    rw [heq]
    dsimp only
    rw [if_neg (by simp [validProduct, mkCreateProduct, MIN_IMAGES_PER_PRODUCT])]

/-! ### Equation lemmas for `editSimilarProductsOfProduct` -/

theorem editSimilarCore_ok {s : Store} {pid : ProductId} {body : List ProductId}
    {product : Product} {sim2 : List ProductId} {pending2 : Store}
    (hp : findProduct s pid = some product)
    (hadd : addLoop s product.id
        (removeLoop s product.id product.similarProducts s
          (product.similarProducts.filter (fun o => !(body.contains o)))).1
        (removeLoop s product.id product.similarProducts s
          (product.similarProducts.filter (fun o => !(body.contains o)))).2
        (body.filter (fun n => !(product.similarProducts.contains n))) = .ok (sim2, pending2))
    (hv : validProduct { product with similarProducts := sim2 } = true) :
    editSimilarProductsOfProduct s pid body =
      (upsertProduct pending2 { product with similarProducts := sim2 },
       .ok { product with similarProducts := sim2 }) := by
  unfold editSimilarProductsOfProduct editSimilarCore
  rw [hp]
  dsimp only
  rw [hadd]
  dsimp only
  rw [if_pos hv]

theorem editSimilarCore_err_add {s : Store} {pid : ProductId} {body : List ProductId}
    {product : Product} {e : Err}
    (hp : findProduct s pid = some product)
    (hadd : addLoop s product.id
        (removeLoop s product.id product.similarProducts s
          (product.similarProducts.filter (fun o => !(body.contains o)))).1
        (removeLoop s product.id product.similarProducts s
          (product.similarProducts.filter (fun o => !(body.contains o)))).2
        (body.filter (fun n => !(product.similarProducts.contains n))) = .error e) :
    editSimilarProductsOfProduct s pid body = (s, .error (e, 500)) := by
  unfold editSimilarProductsOfProduct editSimilarCore
  rw [hp]
  dsimp only
  rw [hadd]

/-- Membership in the computed `removeSimilarProductIds` delta. -/
theorem mem_removeDelta {simList body : List ProductId} {x : ProductId} :
    x ∈ simList.filter (fun o => !(body.contains o)) ↔ x ∈ simList ∧ x ∉ body := by
  simp [List.mem_filter, List.elem_iff]

/-- Membership in the computed `addSimilarProductIds` delta. -/
theorem mem_addDelta {simList body : List ProductId} {x : ProductId} :
    x ∈ body.filter (fun n => !(simList.contains n)) ↔ x ∈ body ∧ x ∉ simList := by
  simp [List.mem_filter, List.elem_iff]

theorem filter_not_contains_nil (l : List ProductId) :
    l.filter (fun o => !(([] : List ProductId).contains o)) = l := by
  simp [List.contains]

/-- The addition loop fails as soon as the product's own id is among the
to-add ids, whatever error fires first. -/
theorem addLoop_error_self_mem (committed : Store) (pid : ProductId) :
    ∀ (ids sim : List ProductId) (pending : Store), pid ∈ ids →
      ∃ e, addLoop committed pid sim pending ids = .error e := by
  intro ids
  induction ids with
  | nil => intro sim pending hc; cases hc
  | cons d rest ih =>
    intro sim pending hc
    unfold addLoop
    by_cases hpd : pid = d
    · exact ⟨_, by rw [if_pos hpd]⟩
    · rw [if_neg hpd]
      cases hfd : findProduct committed d with
      | none => exact ⟨_, rfl⟩
      | some q => exact ih _ _ ((List.mem_cons.mp hc).resolve_left hpd)

/-! ## Claim theorems -/

/-- C10: `editQuantityOfProduct` rejects a requested new quantity of 0 with
the `not present` error (JavaScript truthiness treats 0 as absent), for every
existing product, even though the schema's minimum quantity in stock is 0. -/
theorem c10_editQuantity_rejects_zero (s : Store) (pid : ProductId) (product : Product)
    (_hp : findProduct s pid = some product) :
    editQuantityOfProduct s pid (some 0) =
      (s, .error (.validation qtyNotPresentMsg, 500)) ∧ MIN_QTY_IN_STOCK = 0 := by
  refine ⟨?_, rfl⟩
  unfold editQuantityOfProduct
  rw [if_pos (by decide)]

theorem c10_witness :
    findProduct sampleStore 1 = some sampleProduct ∧
    (editQuantityOfProduct sampleStore 1 (some 0) =
      (sampleStore, .error (.validation qtyNotPresentMsg, 500)) ∧ MIN_QTY_IN_STOCK = 0) :=
  ⟨rfl, c10_editQuantity_rejects_zero sampleStore 1 sampleProduct rfl⟩

/-- C8 (amended): every pre-commit failure carries the thrown message, but
the status code is 400 only for create-product, add-image, delete-image and
rearrange-images; single-product lookup, quantity edit and
edit-similar-products report every failure — validation and not-found
alike — with status 500. -/
theorem c8_status_codes :
    (∀ (s : Store) (pid : ProductId), findProduct s pid = none →
      getProduct s pid = (s, .error (.notFound (productNotFoundDotMsg pid), 500))) ∧
    (∀ (s : Store) (pid : ProductId) (body : List ProductId) (e : CustomError),
      (editSimilarProductsOfProduct s pid body).2 = .error e → e.2 = 500) ∧
    (∀ (s : Store) (pid : ProductId) (q : Option Int) (e : CustomError),
      (editQuantityOfProduct s pid q).2 = .error e → e.2 = 500) ∧
    (∀ (s : Store) (files : Option (List String)) (input : CreateProductInput)
      (freshId : ProductId) (imgIds : List ImageId) (up : String → Bool) (e : CustomError),
      (createProduct s files input freshId imgIds up).2 = .error e → e.2 = 400) ∧
    (∀ (s : Store) (file : Option String) (pid : ProductId) (iid : ImageId)
      (up : String → Bool) (e : CustomError),
      (addNewImageOfProduct s file pid iid up).2 = .error e → e.2 = 400) ∧
    (∀ (s : Store) (pid : ProductId) (iid : ImageId) (delOk : String → Bool) (e : CustomError),
      (deleteImageOfProduct s pid iid delOk).2 = .error e → e.2 = 400) ∧
    (∀ (s : Store) (pid : ProductId) (body : List ImageId) (e : CustomError),
      (rearrangeImagesOfProduct s pid body).2 = .error e → e.2 = 400) := by
  refine ⟨?_, ?_, ?_, ?_, ?_, ?_, ?_⟩
  · intro s pid h
    unfold getProduct
    rw [h]
  · intro s pid body e h
    unfold editSimilarProductsOfProduct at h
    cases hc : editSimilarCore s pid body with
    | ok p => obtain ⟨s', p'⟩ := p; rw [hc] at h; exact absurd h (by simp)
    | error er => rw [hc] at h; dsimp only at h; injection h with h2; rw [← h2]
  · intro s pid q e h
    unfold editQuantityOfProduct at h
    repeat' (first | split at h | simp only [apply_ite] at h)
    all_goals simp_all
    all_goals (subst h; rfl)
  · intro s files input freshId imgIds up e h
    unfold createProduct at h
    repeat' (first | split at h | simp only [apply_ite] at h)
    all_goals simp_all
    all_goals (subst h; rfl)
  · intro s file pid iid up e h
    unfold addNewImageOfProduct at h
    repeat' (first | split at h | simp only [apply_ite] at h)
    all_goals simp_all
    all_goals (subst h; rfl)
  · intro s pid iid delOk e h
    unfold deleteImageOfProduct at h
    repeat' (first | split at h | simp only [apply_ite] at h)
    all_goals simp_all
    all_goals (subst h; rfl)
  · intro s pid body e h
    unfold rearrangeImagesOfProduct at h
    repeat' (first | split at h | simp only [apply_ite] at h)
    all_goals simp_all
    all_goals (subst h; rfl)

theorem c8_witness :
    getProduct emptyStore 2 = (emptyStore, .error (.notFound (productNotFoundDotMsg 2), 500)) :=
  c8_status_codes.1 emptyStore 2 rfl

/-- C8 counterexample: a pre-commit not-found failure of the single-product
lookup is reported with status 500, which is not a 400-class status. -/
theorem c8_counterexample :
    (getProduct emptyStore 1).2 = .error (.notFound (productNotFoundDotMsg 1), 500) ∧
      statusIs4xx (getProduct emptyStore 1).2 = false :=
  ⟨rfl, rfl⟩

/-- C4: when some id of the to-add set has no document in the store, the
whole edit-similar-products operation fails and the committed store — hence
every previously existing edge of the edited product — is unchanged. -/
theorem c4_editSimilar_allOrNothing (s : Store) (pid c : ProductId)
    (product : Product) (body : List ProductId)
    (hp : findProduct s pid = some product)
    (hc : c ∈ body) (hnew : c ∉ product.similarProducts)
    (hmiss : findProduct s c = none) :
    ∃ e, editSimilarProductsOfProduct s pid body = (s, .error e) := by
  have hcadd : c ∈ body.filter (fun n => !(product.similarProducts.contains n)) :=
    mem_addDelta.mpr ⟨hc, hnew⟩
  obtain ⟨e, he⟩ := addLoop_error_missing s product.id
    (body.filter (fun n => !(product.similarProducts.contains n)))
    (removeLoop s product.id product.similarProducts s
      (product.similarProducts.filter (fun o => !(body.contains o)))).1
    (removeLoop s product.id product.similarProducts s
      (product.similarProducts.filter (fun o => !(body.contains o)))).2
    ⟨c, hcadd, hmiss⟩
  exact ⟨(e, 500), editSimilarCore_err_add hp he⟩

theorem c4_witness :
    ∃ e, editSimilarProductsOfProduct sampleStore 1 [2] = (sampleStore, .error e) :=
  c4_editSimilar_allOrNothing sampleStore 1 2 sampleProduct [2] rfl
    (by decide) (by decide) rfl

/-- C5 (amended): a request whose to-add set contains the product's own id
always fails with the store unchanged; the error is the self-reference
`ValidationError` whenever every to-add id processed before the own id
exists in the store, and otherwise the not-found error of an earlier missing
id fires first. -/
theorem c5_self_reference (s : Store) (pid : ProductId) (product : Product)
    (body : List ProductId)
    (hp : findProduct s pid = some product)
    (hbody : pid ∈ body) (hnotcur : pid ∉ product.similarProducts) :
    (∃ e, editSimilarProductsOfProduct s pid body = (s, .error e)) ∧
    (∀ pre post,
      body.filter (fun n => !(product.similarProducts.contains n)) = pre ++ pid :: post →
      pid ∉ pre → (∀ c ∈ pre, (findProduct s c).isSome) →
      editSimilarProductsOfProduct s pid body =
        (s, .error (.validation selfSimilarMsg, 500))) := by
  have hid : product.id = pid := findProduct_id hp
  subst hid
  constructor
  · have hmem : product.id ∈ body.filter (fun n => !(product.similarProducts.contains n)) :=
      mem_addDelta.mpr ⟨hbody, hnotcur⟩
    obtain ⟨e, he⟩ := addLoop_error_self_mem s product.id
      (body.filter (fun n => !(product.similarProducts.contains n)))
      (removeLoop s product.id product.similarProducts s
        (product.similarProducts.filter (fun o => !(body.contains o)))).1
      (removeLoop s product.id product.similarProducts s
        (product.similarProducts.filter (fun o => !(body.contains o)))).2
      hmem
    exact ⟨(e, 500), editSimilarCore_err_add hp he⟩
  · intro pre post hsplit hpre hex
    have he := addLoop_self s product.id pre post
      (removeLoop s product.id product.similarProducts s
        (product.similarProducts.filter (fun o => !(body.contains o)))).1
      (removeLoop s product.id product.similarProducts s
        (product.similarProducts.filter (fun o => !(body.contains o)))).2
      hpre hex
    rw [← hsplit] at he
    exact editSimilarCore_err_add hp he

theorem c5_witness :
    editSimilarProductsOfProduct sampleStore 1 [1] =
      (sampleStore, .error (.validation selfSimilarMsg, 500)) :=
  (c5_self_reference sampleStore 1 sampleProduct [1] rfl (by decide) (by decide)).2
    [] [] (by decide) (by decide) (fun c hc => absurd hc (List.not_mem_nil c))

/-- C5 counterexample: with to-add ids `[2, 1]` on product 1 (so the to-add
set contains the product's own id) and no product 2 in the store, the
operation fails with the not-found error for id 2, not with a
`ValidationError`. -/
theorem c5_counterexample :
    (editSimilarProductsOfProduct sampleStore 1 [2, 1]).2 =
      .error (.notFound (simNotFoundMsg 2), 500) ∧
    resultIsValidation (editSimilarProductsOfProduct sampleStore 1 [2, 1]).2 = false :=
  ⟨rfl, rfl⟩

/-- C9: an id in the to-remove set whose endpoint no longer exists is
skipped entirely, so the dangling id survives in the edited product's stored
list after a successful operation, and the stored list therefore differs
from the requested desired list. -/
theorem c9_dangling_id_survives (s : Store) (pid d : ProductId) (product : Product)
    (body : List ProductId)
    (hwf : wfStore s)
    (hp : findProduct s pid = some product)
    (hd : d ∈ product.similarProducts) (hdmiss : findProduct s d = none)
    (hdbody : d ∉ body)
    (haddok : ∀ c ∈ body, c ∉ product.similarProducts →
      product.id ≠ c ∧ (findProduct s c).isSome) :
    ∃ s' p', editSimilarProductsOfProduct s pid body = (s', .ok p') ∧
      d ∈ p'.similarProducts ∧ p'.similarProducts ≠ body := by
  obtain ⟨hnodup, hval⟩ := hwf
  have hvp : validProduct product = true := hval product (findProduct_mem hp)
  have hv' : ∀ l : List ProductId, validProduct { product with similarProducts := l } = true :=
    fun l => (validProduct_set_sim product l).trans hvp
  obtain ⟨pending', heq, hother, hproc⟩ := addLoop_ok s product.id
    (body.filter (fun n => !(product.similarProducts.contains n)))
    (removeLoop s product.id product.similarProducts s
      (product.similarProducts.filter (fun o => !(body.contains o)))).1
    (removeLoop s product.id product.similarProducts s
      (product.similarProducts.filter (fun o => !(body.contains o)))).2
    (fun c hcadd => by
      obtain ⟨hcb, hcnot⟩ := mem_addDelta.mp hcadd
      obtain ⟨hne, hsome⟩ := haddok c hcb hcnot
      obtain ⟨q, hq⟩ := Option.isSome_iff_exists.mp hsome
      exact ⟨hne, q, hq, hval q (findProduct_mem hq)⟩)
  have hop := editSimilarCore_ok hp heq (hv' _)
  have hdmem : d ∈ ((removeLoop s product.id product.similarProducts s
      (product.similarProducts.filter (fun o => !(body.contains o)))).1 ++
      (body.filter (fun n => !(product.similarProducts.contains n)))) :=
    List.mem_append_left _ (removeLoop_mem_missing s product.id _ _ _ d hd hdmiss)
  refine ⟨_, _, hop, hdmem, ?_⟩
  intro hEq
  exact hdbody (by rw [← hEq]; exact hdmem)

theorem c9_witness :
    ∃ s' p', editSimilarProductsOfProduct danglingStore 1 [] = (s', .ok p') ∧
      99 ∈ p'.similarProducts ∧ p'.similarProducts ≠ [] :=
  c9_dangling_id_survives danglingStore 1 99 danglingProduct [] ⟨by decide, by decide⟩ rfl
    (by decide) rfl (by decide) (fun c hc _ => absurd hc (List.not_mem_nil c))

theorem validProduct_images_bounds {p : Product} (h : validProduct p = true) :
    MIN_IMAGES_PER_PRODUCT ≤ p.images.length ∧ p.images.length ≤ MAX_IMAGES_PER_PRODUCT := by
  simp only [validProduct, Bool.and_eq_true, decide_eq_true_eq] at h
  exact ⟨h.2, h.1.2⟩

theorem validProduct_no_images {p : Product} (h : p.images.length = 0) :
    validProduct p = false := by
  simp [validProduct, h, MIN_IMAGES_PER_PRODUCT]

theorem similarElements_of_perm {a b : List Nat} (h : List.Perm a b) :
    doesArraysHaveSimilarElements a b = true := by
  simp only [doesArraysHaveSimilarElements, Bool.and_eq_true, decide_eq_true_eq,
    List.all_eq_true]
  refine ⟨⟨h.length_eq, fun x hx => ?_⟩, fun x hx => ?_⟩
  · exact List.elem_iff.mpr (h.mem_iff.mp hx)
  · exact List.elem_iff.mpr (h.mem_iff.mpr hx)

theorem similarElements_spec {a b : List Nat} (h : doesArraysHaveSimilarElements a b = true) :
    a.length = b.length ∧ (∀ x ∈ a, x ∈ b) ∧ (∀ x ∈ b, x ∈ a) := by
  simp only [doesArraysHaveSimilarElements, Bool.and_eq_true, decide_eq_true_eq,
    List.all_eq_true] at h
  exact ⟨h.1.1, fun x hx => List.elem_iff.mp (h.1.2 x hx),
    fun x hx => List.elem_iff.mp (h.2 x hx)⟩

/-- C6: a rearrange request that is a permutation of the stored image list
succeeds and stores exactly the submitted order; a request that omits an
existing id, adds an unknown id, or (the stored ids being distinct)
duplicates an id fails with the `Images are different` ValidationError and
leaves the store unchanged. -/
theorem c6_rearrange_permutation (s : Store) (pid : ProductId) (product : Product)
    (body : List ImageId)
    (hp : findProduct s pid = some product) (hv : validProduct product = true) :
    (List.Perm body product.images →
      rearrangeImagesOfProduct s pid body =
        (upsertProduct s { product with images := body },
         .ok { product with images := body })) ∧
    ((∃ i ∈ product.images, i ∉ body) ∨ (∃ i ∈ body, i ∉ product.images) ∨
        (product.images.Nodup ∧ ¬ body.Nodup) →
      rearrangeImagesOfProduct s pid body = (s, .error (.validation imagesDifferentMsg, 400))) := by
  constructor
  · intro hperm
    have hsim : doesArraysHaveSimilarElements body product.images = true :=
      similarElements_of_perm hperm
    have hvp : validProduct { product with images := body } = true := by
      apply validProduct_set_images hv
      · rw [hperm.length_eq]
        exact (validProduct_images_bounds hv).1
      · rw [hperm.length_eq]
        exact (validProduct_images_bounds hv).2
    unfold rearrangeImagesOfProduct
    rw [hp]
    try dsimp only
    rw [if_pos hsim, if_pos hvp]
  · intro hbad
    have hsimf : ¬ (doesArraysHaveSimilarElements body product.images = true) := by
      intro htrue
      obtain ⟨hlen, hab, hba⟩ := similarElements_spec htrue
      rcases hbad with ⟨i, hi, hnb⟩ | ⟨i, hi, hnb⟩ | ⟨hnodup, hdup⟩
      · exact hnb (hba i hi)
      · exact hnb (hab i hi)
      · have hsub : List.Subperm product.images body :=
          List.Nodup.subperm hnodup (fun x hx => hba x hx)
        have hperm : List.Perm product.images body :=
          List.Subperm.perm_of_length_le hsub (le_of_eq hlen)
        exact hdup (hperm.nodup_iff.mp hnodup)
    unfold rearrangeImagesOfProduct
    rw [hp]
    try dsimp only
    rw [if_neg hsimf]

theorem c6_witness :
    rearrangeImagesOfProduct twoImgStore 1 [11, 10] =
      (upsertProduct twoImgStore { twoImgProduct with images := [11, 10] },
       .ok { twoImgProduct with images := [11, 10] }) :=
  (c6_rearrange_permutation twoImgStore 1 twoImgProduct [11, 10] rfl (by decide)).1 (by decide)

/-- C7 (amended): deleting an image that exists but is not listed by the
stated product fails with the `ConflictError` and changes nothing; deleting
an image the product does list succeeds — removing the reference and the
record — only while the product keeps at least one other image, because
deleting the only image fails the schema's minimum-images validation and
changes nothing. -/
theorem c7_deleteImage_ownership (s : Store) (pid : ProductId) (iid : ImageId)
    (product : Product) (image : ProductImage) (delOk : String → Bool)
    (hp : findProduct s pid = some product) (hi : findImage s iid = some image) :
    (image.id ∉ product.images →
      deleteImageOfProduct s pid iid delOk =
        (s, .error (.conflict (imageNotBelongMsg iid pid), 400))) ∧
    (image.id ∈ product.images → validProduct product = true → product.images.Nodup →
      2 ≤ product.images.length → delOk image.url = true →
      ∃ s', deleteImageOfProduct s pid iid delOk =
          (s', .ok { product with images := product.images.erase image.id }) ∧
        findProduct s' pid = some { product with images := product.images.erase image.id } ∧
        iid ∉ (product.images.erase image.id) ∧
        findImage s' iid = none) ∧
    (image.id ∈ product.images → product.images.length = 1 →
      deleteImageOfProduct s pid iid delOk =
        (s, .error (.validation validationFailedMsg, 400))) := by
  refine ⟨?_, ?_, ?_⟩
  · intro hnot
    unfold deleteImageOfProduct
    rw [hp]
    dsimp only
    rw [hi]
    dsimp only
    rw [if_pos hnot]
  · intro hmem hv hnodup hlen hdel
    have hlenE : (product.images.erase image.id).length = product.images.length - 1 :=
      List.length_erase_of_mem hmem
    have hbounds := validProduct_images_bounds hv
    have hvp : validProduct { product with images := product.images.erase image.id } = true := by
      apply validProduct_set_images hv
      · rw [hlenE]
        simp only [MIN_IMAGES_PER_PRODUCT]
        omega
      · rw [hlenE]
        simp only [MAX_IMAGES_PER_PRODUCT] at hbounds ⊢
        omega
    have hpid : product.id = pid := findProduct_id hp
    have hiid : image.id = iid := findImage_id hi
    unfold deleteImageOfProduct
    rw [hp]
    dsimp only
    rw [hi]
    dsimp only
    rw [if_neg (not_not_intro hmem)]
    try dsimp only
    rw [if_pos hvp, if_pos hdel]
    refine ⟨_, rfl, ?_, ?_, ?_⟩
    · rw [findProduct_upsert]
      exact if_pos hpid.symm
    · rw [← hiid]
      intro hmem'
      exact ((List.Nodup.mem_erase_iff hnodup).mp hmem').1 rfl
    · rw [findImage_upsertProduct]
      unfold findImage
      refine List.find?_eq_none.mpr ?_
      intro r hr
      have h2 := (List.mem_filter.mp hr).2
      simp only [decide_eq_true_eq] at h2 ⊢
      exact h2
  · intro hmem hlen1
    have hvf : validProduct { product with images := product.images.erase image.id } = false := by
      apply validProduct_no_images
      show (product.images.erase image.id).length = 0
      rw [List.length_erase_of_mem hmem, hlen1]
    unfold deleteImageOfProduct
    rw [hp]
    dsimp only
    rw [hi]
    dsimp only
    rw [if_neg (not_not_intro hmem)]
    try dsimp only
    rw [if_neg (by simp [hvf])]

theorem c7_witness :
    ∃ s', deleteImageOfProduct twoImgStore 1 10 fsAlwaysOk =
        (s', .ok { twoImgProduct with images := twoImgProduct.images.erase 10 }) ∧
      findProduct s' 1 = some { twoImgProduct with images := twoImgProduct.images.erase 10 } ∧
      10 ∉ (twoImgProduct.images.erase 10) ∧
      findImage s' 10 = none :=
  (c7_deleteImage_ownership twoImgStore 1 10 twoImgProduct ⟨10, "u10"⟩ fsAlwaysOk rfl rfl).2.1
    (by decide) (by decide) (by decide) (by decide) rfl

/-- C7 counterexample: image 10 belongs to product 1, which owns only that
image; the delete fails on the schema's minimum-images validator instead of
removing the reference and the record, and the store is unchanged. -/
theorem c7_counterexample :
    10 ∈ sampleProduct.images ∧
    deleteImageOfProduct sampleStore 1 10 fsAlwaysOk =
      (sampleStore, .error (.validation validationFailedMsg, 400)) ∧
    (findImage sampleStore 10).isSome = true :=
  ⟨by decide, rfl, rfl⟩

/-- C3 (amended): a create request with 0 or more than 3 image files always
fails with the store unchanged; with more than 3 files the error is the
max-images ValidationError, and with 0 files it is the schema's
minimum-images validation failure provided every listed similar-product id
exists (a missing similar id fails first, with its NotFoundError). -/
theorem c3_create_bad_count (s : Store) (files : List String) (input : CreateProductInput)
    (freshId : ProductId) (imgIds : List ImageId) (uploadOk : String → Bool)
    (hcount : files.length = 0 ∨ MAX_IMAGES_PER_PRODUCT < files.length) :
    (∃ e, createProduct s (some files) input freshId imgIds uploadOk = (s, .error e)) ∧
    (MAX_IMAGES_PER_PRODUCT < files.length →
      createProduct s (some files) input freshId imgIds uploadOk =
        (s, .error (.validation maxImagesMsg, 400))) ∧
    (files.length = 0 → (∀ c ∈ input.similarProducts, (findProduct s c).isSome) →
      createProduct s (some files) input freshId imgIds uploadOk =
        (s, .error (.validation validationFailedMsg, 400))) := by
  have hgt : ∀ _ : MAX_IMAGES_PER_PRODUCT < files.length,
      createProductCore s files input freshId imgIds = .error (.validation maxImagesMsg) := by
    intro h
    unfold createProductCore
    rw [if_pos h]
  refine ⟨?_, ?_, ?_⟩
  · rcases hcount with h0 | hgt'
    · have hf : files = [] := List.length_eq_zero.mp h0
      subst hf
      obtain ⟨e, he⟩ := (createProductCore_no_files s input freshId imgIds).1
      exact ⟨(e, 400), by unfold createProduct; dsimp only; rw [he]⟩
    · exact ⟨(.validation maxImagesMsg, 400), by unfold createProduct; dsimp only; rw [hgt hgt']⟩
  · intro h
    unfold createProduct
    dsimp only
    rw [hgt h]
  · intro h0 hsim
    have hf : files = [] := List.length_eq_zero.mp h0
    subst hf
    have he := (createProductCore_no_files s input freshId imgIds).2 hsim
    unfold createProduct
    dsimp only
    rw [he]

theorem c3_witness :
    createProduct emptyStore (some ["a", "b", "c", "d"]) cexCreateInput 1 [] fsAlwaysOk =
      (emptyStore, .error (.validation maxImagesMsg, 400)) :=
  (c3_create_bad_count emptyStore ["a", "b", "c", "d"] cexCreateInput 1 [] fsAlwaysOk
    (Or.inr (by decide))).2.1 (by decide)

/-- C3 counterexample: a zero-file create whose body lists the nonexistent
similar product 5 fails with that id's NotFoundError, not with a
ValidationError (the similar-products loop runs before the failing save). -/
theorem c3_counterexample :
    (createProduct emptyStore (some []) cexCreateInput 1 [] fsAlwaysOk).2 =
      .error (.notFound (simNotFoundMsg 5), 400) ∧
    resultIsValidation (createProduct emptyStore (some []) cexCreateInput 1 [] fsAlwaysOk).2 =
      false :=
  ⟨rfl, rfl⟩

/-- C2 (amended): when the transactional commit succeeds and a subsequent
file upload fails — for create-product or add-image — the committed product
and image documents remain persisted (the abort after commit rolls nothing
back), but the operation is reported to the caller as a 400 `CustomError`
carrying the side-effect failure, not as a degraded success. -/
theorem c2_commit_then_upload_failure :
    (∀ (s : Store) (files : List String) (input : CreateProductInput)
      (freshId : ProductId) (imgIds : List ImageId) (uploadOk : String → Bool),
      files.length ≤ MAX_IMAGES_PER_PRODUCT →
      imgIds.length = files.length →
      (∀ c ∈ input.similarProducts, (findProduct s c).isSome) →
      validProduct (mkCreateProduct input freshId imgIds) = true →
      (∃ f ∈ files, uploadOk f = false) →
      ∃ s' p m, createProduct s (some files) input freshId imgIds uploadOk =
          (s', .error (.sideEffect m, 400)) ∧
        findProduct s' freshId = some p ∧ p.images = imgIds ∧
        ∀ i ∈ imgIds, (findImage s' i).isSome) ∧
    (∀ (s : Store) (file : String) (pid : ProductId) (freshImgId : ImageId)
      (uploadOk : String → Bool) (product : Product),
      findProduct s pid = some product →
      product.images.length < MAX_IMAGES_PER_PRODUCT →
      validProduct product = true →
      uploadOk file = false →
      ∃ s', addNewImageOfProduct s (some file) pid freshImgId uploadOk =
          (s', .error (.sideEffect (uploadFailMsg file), 400)) ∧
        findProduct s' pid = some { product with images := product.images ++ [freshImgId] } ∧
        (findImage s' freshImgId).isSome) := by
  constructor
  · intro s files input freshId imgIds uploadOk hcnt hlen hsim hv hfail
    have hmap : (files.zip imgIds).map (fun fi => fi.2) = imgIds :=
      List.map_snd_zip files imgIds (le_of_eq hlen)
    obtain ⟨sim', pending', hcsl, himgs⟩ := createSimilarLoop_ok s freshId
      input.similarProducts []
      (List.foldl (fun st fi => upsertImage st ⟨fi.2, imageUrlOfFile fi.1⟩) s (files.zip imgIds))
      hsim
    have hvP : validProduct { mkCreateProduct input freshId
        ((files.zip imgIds).map (fun fi => fi.2)) with similarProducts := sim' } = true := by
      rw [validProduct_set_sim, hmap]
      exact hv
    have hcore : createProductCore s files input freshId imgIds =
        .ok (upsertProduct pending'
          { mkCreateProduct input freshId ((files.zip imgIds).map (fun fi => fi.2)) with
            similarProducts := sim' },
          { mkCreateProduct input freshId ((files.zip imgIds).map (fun fi => fi.2)) with
            similarProducts := sim' }) := by
      unfold createProductCore
      rw [if_neg (Nat.not_lt.mpr hcnt)]
      dsimp only
      rw [hcsl]
      dsimp only
      rw [if_pos hvP]
    obtain ⟨m, hup⟩ := uploadAll_fail uploadOk files hfail
    refine ⟨upsertProduct pending'
        { mkCreateProduct input freshId ((files.zip imgIds).map (fun fi => fi.2)) with
          similarProducts := sim' },
      { mkCreateProduct input freshId ((files.zip imgIds).map (fun fi => fi.2)) with
        similarProducts := sim' },
      m, ?_, ?_, ?_, ?_⟩
    · unfold createProduct
      dsimp only
      rw [hcore]
      dsimp only
      rw [hup]
    · rw [findProduct_upsert]
      exact if_pos rfl
    · show (files.zip imgIds).map (fun fi => fi.2) = imgIds
      exact hmap
    · intro i hi
      rw [findImage_upsertProduct]
      have hfi : findImage pending' i = findImage
          (List.foldl (fun st fi => upsertImage st ⟨fi.2, imageUrlOfFile fi.1⟩) s
            (files.zip imgIds)) i := by
        unfold findImage
        rw [himgs]
      rw [hfi]
      apply findImage_foldUpsert imageUrlOfFile
      left
      rw [hmap]
      exact hi
  · intro s file pid freshImgId uploadOk product hp hlt hv hfail
    have hvp : validProduct { product with images := product.images ++ [freshImgId] } = true := by
      apply validProduct_set_images hv
      · simp only [List.length_append, List.length_singleton, MIN_IMAGES_PER_PRODUCT]
        omega
      · simp only [List.length_append, List.length_singleton]
        simp only [MAX_IMAGES_PER_PRODUCT] at hlt ⊢
        omega
    unfold addNewImageOfProduct
    dsimp only
    rw [hp]
    dsimp only
    rw [if_neg (not_not_intro hlt)]
    try dsimp only
    rw [if_pos hvp]
    rw [if_neg (by simp [hfail])]
    refine ⟨_, rfl, ?_, ?_⟩
    · rw [findProduct_upsert]
      exact if_pos (findProduct_id hp).symm
    · rw [findImage_upsertProduct, findImage_upsertImage, if_pos rfl]
      rfl

theorem c2_witness :
    ∃ s', addNewImageOfProduct sampleStore (some "f2") 1 11 fsAlwaysFail =
        (s', .error (.sideEffect (uploadFailMsg "f2"), 400)) ∧
      findProduct s' 1 = some { sampleProduct with images := sampleProduct.images ++ [11] } ∧
      (findImage s' 11).isSome :=
  c2_commit_then_upload_failure.2 sampleStore "f2" 1 11 fsAlwaysFail sampleProduct rfl
    (by decide) (by decide) rfl

/-- C2 counterexample: a valid one-file create whose upload fails after the
commit keeps the committed product (id 1) and its image record (id 10) in
the store but is reported as an error, not as a (degraded) success. -/
theorem c2_counterexample :
    resultIsOk (createProduct emptyStore (some ["f1"]) oneFileInput 1 [10] fsAlwaysFail).2 =
      false ∧
    (createProduct emptyStore (some ["f1"]) oneFileInput 1 [10] fsAlwaysFail).2 =
      .error (.sideEffect (uploadFailMsg "f1"), 400) ∧
    (findProduct (createProduct emptyStore (some ["f1"]) oneFileInput 1 [10] fsAlwaysFail).1
      1).isSome = true ∧
    (findImage (createProduct emptyStore (some ["f1"]) oneFileInput 1 [10] fsAlwaysFail).1
      10).isSome = true :=
  ⟨rfl, rfl, rfl, rfl⟩

/-- First relation edit of the mutual-edge scenario: `edit(A, [B])` succeeds
and leaves an edge present in both directions. -/
theorem editSimilar_pair_step1 (s : Store) (a b : Product)
    (hwf : wfStore s) (hinv : mutualInvariant s)
    (ha : a ∈ s.products) (hb : b ∈ s.products) (hne : a.id ≠ b.id) :
    ∃ s1 A1 B1,
      editSimilarProductsOfProduct s a.id [b.id] = (s1, .ok A1) ∧
      A1.id = a.id ∧ validProduct A1 = true ∧
      findProduct s1 a.id = some A1 ∧ b.id ∈ A1.similarProducts ∧
      findProduct s1 b.id = some B1 ∧ validProduct B1 = true ∧
      a.id ∈ B1.similarProducts := by
  obtain ⟨hnodup, hval⟩ := hwf
  have hfa : findProduct s a.id = some a := findProduct_of_mem hnodup ha
  have hfb : findProduct s b.id = some b := findProduct_of_mem hnodup hb
  have hva : validProduct a = true := hval a ha
  have hvb : validProduct b = true := hval b hb
  have hbrm : b.id ∉ a.similarProducts.filter
      (fun o => !(([b.id] : List ProductId).contains o)) := by
    intro hmem
    exact (mem_removeDelta.mp hmem).2 (List.mem_singleton.mpr rfl)
  by_cases hmem : b.id ∈ a.similarProducts
  · have haddIds : ([b.id] : List ProductId).filter
        (fun n => !(a.similarProducts.contains n)) = [] := by
      simp [List.elem_iff, hmem]
    have hadd : addLoop s a.id
        (removeLoop s a.id a.similarProducts s
          (a.similarProducts.filter (fun o => !(([b.id] : List ProductId).contains o)))).1
        (removeLoop s a.id a.similarProducts s
          (a.similarProducts.filter (fun o => !(([b.id] : List ProductId).contains o)))).2
        (([b.id] : List ProductId).filter (fun n => !(a.similarProducts.contains n))) =
        .ok ((removeLoop s a.id a.similarProducts s
          (a.similarProducts.filter (fun o => !(([b.id] : List ProductId).contains o)))).1,
          (removeLoop s a.id a.similarProducts s
          (a.similarProducts.filter (fun o => !(([b.id] : List ProductId).contains o)))).2) := by
      rw [haddIds]
      rfl
    have hv1 : validProduct { a with similarProducts :=
        (removeLoop s a.id a.similarProducts s
          (a.similarProducts.filter (fun o => !(([b.id] : List ProductId).contains o)))).1 } =
        true := (validProduct_set_sim a _).trans hva
    have hop := editSimilarCore_ok hfa hadd hv1
    refine ⟨_, _, b, hop, rfl, hv1, ?_, ?_, ?_, hvb, ?_⟩
    · rw [findProduct_upsert]
      exact if_pos rfl
    · exact (removeLoop_mem_iff s a.id _ _ _ b.id hbrm).mpr hmem
    · rw [findProduct_upsert, if_neg (fun h => hne h.symm)]
      rw [removeLoop_find_other s a.id _ _ _ b.id hbrm]
      exact hfb
    · exact hinv a ha b hb hmem
  · have haddIds : ([b.id] : List ProductId).filter
        (fun n => !(a.similarProducts.contains n)) = [b.id] := by
      simp [List.elem_iff, hmem]
    obtain ⟨pending', heq, hother, hproc⟩ := addLoop_ok s a.id [b.id]
      (removeLoop s a.id a.similarProducts s
        (a.similarProducts.filter (fun o => !(([b.id] : List ProductId).contains o)))).1
      (removeLoop s a.id a.similarProducts s
        (a.similarProducts.filter (fun o => !(([b.id] : List ProductId).contains o)))).2
      (fun c hc => by
        have hcb : c = b.id := List.mem_singleton.mp hc
        subst hcb
        exact ⟨hne, b, hfb, hvb⟩)
    have hadd : addLoop s a.id
        (removeLoop s a.id a.similarProducts s
          (a.similarProducts.filter (fun o => !(([b.id] : List ProductId).contains o)))).1
        (removeLoop s a.id a.similarProducts s
          (a.similarProducts.filter (fun o => !(([b.id] : List ProductId).contains o)))).2
        (([b.id] : List ProductId).filter (fun n => !(a.similarProducts.contains n))) =
        .ok ((removeLoop s a.id a.similarProducts s
          (a.similarProducts.filter (fun o => !(([b.id] : List ProductId).contains o)))).1 ++
          [b.id], pending') := by
      rw [haddIds]
      exact heq
    have hv1 : validProduct { a with similarProducts :=
        (removeLoop s a.id a.similarProducts s
          (a.similarProducts.filter (fun o => !(([b.id] : List ProductId).contains o)))).1 ++
        [b.id] } = true := (validProduct_set_sim a _).trans hva
    have hop := editSimilarCore_ok hfa hadd hv1
    refine ⟨_, _, { b with similarProducts := b.similarProducts ++ [a.id] }, hop, rfl, hv1,
      ?_, ?_, ?_, (validProduct_set_sim b _).trans hvb, ?_⟩
    · rw [findProduct_upsert]
      exact if_pos rfl
    · exact List.mem_append_right _ (List.mem_singleton.mpr rfl)
    · rw [findProduct_upsert, if_neg (fun h => hne h.symm)]
      exact hproc b.id (List.mem_singleton.mpr rfl) b hfb
    · exact List.mem_append_right _ (List.mem_singleton.mpr rfl)

/-- Second relation edit of the mutual-edge scenario: `edit(A, [])` succeeds
and removes the edge from both endpoints. -/
theorem editSimilar_pair_step2 (s1 : Store) (aid bid : ProductId) (A1 B1 : Product)
    (hne : aid ≠ bid)
    (hfa : findProduct s1 aid = some A1) (haid : A1.id = aid) (hva : validProduct A1 = true)
    (hmem : bid ∈ A1.similarProducts)
    (hfb : findProduct s1 bid = some B1) (hvb : validProduct B1 = true) :
    ∃ s2 A2 B2, editSimilarProductsOfProduct s1 aid [] = (s2, .ok A2) ∧
      findProduct s2 aid = some A2 ∧ bid ∉ A2.similarProducts ∧
      findProduct s2 bid = some B2 ∧ aid ∉ B2.similarProducts := by
  have hids : A1.similarProducts.filter (fun o => !(([] : List ProductId).contains o)) =
      A1.similarProducts := filter_not_contains_nil _
  have hadd : addLoop s1 A1.id
      (removeLoop s1 A1.id A1.similarProducts s1
        (A1.similarProducts.filter (fun o => !(([] : List ProductId).contains o)))).1
      (removeLoop s1 A1.id A1.similarProducts s1
        (A1.similarProducts.filter (fun o => !(([] : List ProductId).contains o)))).2
      (([] : List ProductId).filter (fun n => !(A1.similarProducts.contains n))) =
      .ok ((removeLoop s1 A1.id A1.similarProducts s1
        (A1.similarProducts.filter (fun o => !(([] : List ProductId).contains o)))).1,
        (removeLoop s1 A1.id A1.similarProducts s1
        (A1.similarProducts.filter (fun o => !(([] : List ProductId).contains o)))).2) := rfl
  have hv2 : validProduct { A1 with similarProducts :=
      (removeLoop s1 A1.id A1.similarProducts s1
        (A1.similarProducts.filter (fun o => !(([] : List ProductId).contains o)))).1 } =
      true := (validProduct_set_sim A1 _).trans hva
  have hop := editSimilarCore_ok hfa hadd hv2
  have hsome : (findProduct s1 bid).isSome := by rw [hfb]; rfl
  have hnotmem : bid ∉ (removeLoop s1 A1.id A1.similarProducts s1
      (A1.similarProducts.filter (fun o => !(([] : List ProductId).contains o)))).1 := by
    rw [hids]
    exact removeLoop_not_mem s1 A1.id A1.similarProducts A1.similarProducts s1 bid hmem hsome
  have hfproc : findProduct (removeLoop s1 A1.id A1.similarProducts s1
      (A1.similarProducts.filter (fun o => !(([] : List ProductId).contains o)))).2 bid =
      some { B1 with similarProducts :=
        B1.similarProducts.filter (fun x => !(x == A1.id)) } := by
    rw [hids]
    exact removeLoop_find_processed s1 A1.id A1.similarProducts A1.similarProducts s1 bid B1
      hmem hfb hvb
  refine ⟨_, _, { B1 with similarProducts :=
      B1.similarProducts.filter (fun x => !(x == A1.id)) }, hop, ?_, hnotmem, ?_, ?_⟩
  · rw [findProduct_upsert]
    exact if_pos haid.symm
  · rw [findProduct_upsert, if_neg (fun h => hne (h.trans haid).symm)]
    exact hfproc
  · intro hmem'
    have hf := (List.mem_filter.mp hmem').2
    simp [haid] at hf

/-- C1: for distinct existing products A and B in a store satisfying the
mutual-edge invariant, `editSimilarProductsOfProduct(A, [B])` succeeds and
afterwards A lists B and B lists A; a subsequent
`editSimilarProductsOfProduct(A, [])` succeeds and afterwards neither lists
the other. -/
theorem c1_mutual_edge_invariant (s : Store) (a b : Product)
    (hwf : wfStore s) (hinv : mutualInvariant s)
    (ha : a ∈ s.products) (hb : b ∈ s.products) (hne : a.id ≠ b.id) :
    ∃ s1 A1, editSimilarProductsOfProduct s a.id [b.id] = (s1, .ok A1) ∧
      (∃ a1, findProduct s1 a.id = some a1 ∧ b.id ∈ a1.similarProducts) ∧
      (∃ b1, findProduct s1 b.id = some b1 ∧ a.id ∈ b1.similarProducts) ∧
      ∃ s2 A2, editSimilarProductsOfProduct s1 a.id [] = (s2, .ok A2) ∧
        (∃ a2, findProduct s2 a.id = some a2 ∧ b.id ∉ a2.similarProducts) ∧
        (∃ b2, findProduct s2 b.id = some b2 ∧ a.id ∉ b2.similarProducts) := by
  obtain ⟨s1, A1, B1, hop1, haid, hva1, hfa1, hmem1, hfb1, hvb1, hmemB⟩ :=
    editSimilar_pair_step1 s a b hwf hinv ha hb hne
  obtain ⟨s2, A2, B2, hop2, hfa2, hnm2, hfb2, hnmB⟩ :=
    editSimilar_pair_step2 s1 a.id b.id A1 B1 hne hfa1 haid hva1 hmem1 hfb1 hvb1
  exact ⟨s1, A1, hop1, ⟨A1, hfa1, hmem1⟩, ⟨B1, hfb1, hmemB⟩, s2, A2, hop2,
    ⟨A2, hfa2, hnm2⟩, ⟨B2, hfb2, hnmB⟩⟩

theorem c1_witness :
    ∃ s1 A1, editSimilarProductsOfProduct pairStore 1 [2] = (s1, .ok A1) ∧
      (∃ a1, findProduct s1 1 = some a1 ∧ 2 ∈ a1.similarProducts) ∧
      (∃ b1, findProduct s1 2 = some b1 ∧ 1 ∈ b1.similarProducts) ∧
      ∃ s2 A2, editSimilarProductsOfProduct s1 1 [] = (s2, .ok A2) ∧
        (∃ a2, findProduct s2 1 = some a2 ∧ 2 ∉ a2.similarProducts) ∧
        (∃ b2, findProduct s2 2 = some b2 ∧ 1 ∉ b2.similarProducts) :=
  c1_mutual_edge_invariant pairStore pairA pairB ⟨by decide, by decide⟩
    (by unfold mutualInvariant; decide) (by decide) (by decide) (by decide)

end ECommerce
